import Mathlib

/-!
Verification of the crawl scheduler in `scraper.py` (uoloki/web-scraper).

Shallow embedding choices:
* Strings are Lean `String`s; internal matching works on `String.data`
  (lists of characters), mirroring Python's character-level regexes.
* `BeautifulSoup` documents are abstracted (as the design document does) to
  the observations the scraper makes of them: the `href` targets of the
  `a[href]` elements in document order, the optional located
  `.wp-post-image` `src`, `.woocommerce-loop-product__title` text and
  `.price` text, plus a `malformed` flag standing for a document on which
  the selection layer raises an exception (the `except` path of
  `extract_product_data`).
* The HTTP transport (`requests.get` + `raise_for_status`) is an external
  collaborator: an iteration's outcome is an oracle value `FetchOutcome`,
  either a `RequestException` (transport error / timeout / HTTP error
  raised by `raise_for_status`, all caught as `RequestException`) or a
  response carrying the final status code and the parse of the body
  (`BeautifulSoup` never fails on bytes, so parsing is total).
* `time.time() - start_time` readings are oracle rationals supplied per
  loop iteration; floats carry no rounding subtlety at the comparisons the
  program makes.
* The `queue.PriorityQueue` is modelled by its observable behaviour: a
  multiset (list) of `(priority, url)` pairs where `get` removes the
  minimum under the lexicographic tuple order Python uses and `put`
  inserts; priorities `0.5` and `1` are the exact rationals `1/2` and `1`.
-/

namespace Scraper

/-- Document abstraction: what `main` and `extract_product_data` observe of
a parsed `BeautifulSoup` object. -/
structure Doc where
  links : List String
  image : Option String
  title : Option String
  price : Option String
  malformed : Bool
deriving DecidableEq

/-- Product record: the dict built by `extract_product_data`, fields in the
source's insertion order `url, image, name, price`. -/
structure Product where
  url : String
  image : String
  name : String
  price : String
deriving DecidableEq

/-- Literal matcher: `dropLit pat s = some r` iff `s = pat ++ r`.  Used to
translate the anchored literal parts of the source's regexes. -/
def dropLit : List Char → List Char → Option (List Char)
  | [], s => some s
  | _ :: _, [] => none
  | p :: ps, c :: cs => if c = p then dropLit ps cs else none

/-- Remainder matcher for the classifier regex: `restNum cs` holds iff `cs`
matches `\d*/?$` (digits then an optional final slash). -/
def restNum : List Char → Bool
  | [] => true
  | c :: cs => if c = '/' ∧ cs = [] then true else (c.isDigit && restNum cs)

/-- Tail matcher for the classifier regex: `numTail cs` holds iff `cs`
matches `\d+/?$`. -/
def numTail : List Char → Bool
  | [] => false
  | c :: cs => c.isDigit && restNum cs

/-- Classifier `is_product_page` (scraper.py line 59): translation of
`re.match(r"^https://scrapeme\.live/shop/page/\d+/?$", url)`, returned as a
boolean (the source returns a truthy match object or `None`).  Python's
`\d` also accepts non-ASCII Unicode digits; those cannot occur in a
well-formed URL, and the model reads `\d` as `0`-`9`. -/
def is_product_page (url : String) : Bool :=
  match dropLit "https://scrapeme.live/shop/page/".data url.data with
  | some rest => numTail rest
  | none => false

/-- Tail matcher for the link regex of `main` (scraper.py line 140): does
`cs` start with `scrapeme` + one non-newline character + `live`?  The
source pattern `scrapeme.live` has an unescaped dot, which in Python
matches any character except a newline. -/
def siteTail (cs : List Char) : Bool :=
  match dropLit "scrapeme".data cs with
  | none => false
  | some rest =>
    match rest with
    | [] => false
    | c :: rest2 => decide (c ≠ '\n') && (dropLit "live".data rest2).isSome

/-- Scan for the optional group `(?:.*\.)?` of the link regex: a match may
also start right after any `.` reachable through non-newline characters. -/
def siteScan : List Char → Bool
  | [] => false
  | c :: cs => (decide (c = '.') && siteTail cs) || (decide (c ≠ '\n') && siteScan cs)

/-- Link filter of `main` (scraper.py line 140): translation of
`re.match(r"https://(?:.*\.)?scrapeme.live", url)` as a boolean.
`re.match` only anchors at the start, so this is a prefix match. -/
def matchesSiteRegex (url : String) : Bool :=
  match dropLit "https://".data url.data with
  | none => false
  | some t => siteTail t || siteScan t

/-- Python `str.strip()` on the default whitespace characters that can
occur in ASCII text (space, tab, newline, carriage return, vertical tab,
form feed); Unicode-only whitespace is out of scope for this model. -/
def isPySpace (c : Char) : Bool :=
  c = ' ' || c = '\t' || c = '\n' || c = '\r' || c = '\x0b' || c = '\x0c'

/-- Python `str.strip()`: drop leading and trailing whitespace. -/
def pyStrip (s : String) : String :=
  String.mk (((s.data.dropWhile isPySpace).reverse.dropWhile isPySpace).reverse)

/-- Extractor `extract_product_data` (scraper.py lines 61-74).  A missing
element degrades to its sentinel string; `malformed` stands for the
`except Exception` path (an exception raised by the selection layer, e.g.
a located image tag without a `src` attribute), which returns `None`. -/
def extract_product_data (soup : Doc) (current_url : String) : Option Product :=
  if soup.malformed then none
  else
    some
      { url := current_url
        image := match soup.image with | some s => s | none => "No image found"
        name := match soup.title with | some s => pyStrip s | none => "No title found"
        price := match soup.price with | some s => pyStrip s | none => "No price found" }

/-- Fetch outcome oracle: what the external transport produced for one
`requests.get` call.  `requestError` covers every `RequestException`
(connection failure, timeout, and the `HTTPError` that `raise_for_status`
raises for 4xx/5xx is handled separately below from the status code);
`response` carries the final HTTP status code and the parse of the body. -/
inductive FetchOutcome where
  | requestError : FetchOutcome
  | response (status : Nat) (doc : Doc) : FetchOutcome
deriving DecidableEq

/-- Fetcher `safe_scrape_page` (scraper.py lines 42-54): `requests.get`
errors are caught and yield `none`; `response.raise_for_status()` raises
`HTTPError` (a `RequestException`, caught) exactly for status codes in
`400..599`; otherwise the parsed document is returned.  The function is
total: the `except Exception` clause lets no exception escape. -/
def safe_scrape_page (outcome : FetchOutcome) : Option Doc :=
  match outcome with
  | .requestError => none
  | .response status doc => if 400 ≤ status ∧ status < 600 then none else some doc

/-- Session state mutated by `main` (scraper.py lines 122-126): the
priority queue contents, the `visited_urls` list, the `products` list
(whose elements are the unchecked results of `extract_product_data`, hence
`Option Product`), and the `pages_scraped` counter. -/
structure SessionState where
  queue : List (Rat × String)
  visited : List String
  products : List (Option Product)
  pages_scraped : Nat
deriving DecidableEq

/-- Python string `<`: lexicographic comparison by code point. -/
def strLt : List Char → List Char → Bool
  | [], [] => false
  | [], _ :: _ => true
  | _ :: _, [] => false
  | a :: as, b :: bs => if a < b then true else if b < a then false else strLt as bs

/-- Python tuple order on `(priority, url)` pairs, as `heapq` compares
entries of a `queue.PriorityQueue`: by priority, ties by the URL string. -/
def entryLe (a b : Rat × String) : Bool :=
  decide (a.1 < b.1) || (decide (a.1 = b.1) && !strLt b.2.data a.2.data)

/-- Minimum entry of `e :: l` under the tuple order. -/
def minEntry (e : Rat × String) : List (Rat × String) → Rat × String
  | [] => e
  | f :: fs => if entryLe e f then minEntry e fs else minEntry f fs

/-- Remove the first occurrence of an entry from the queue contents (the
effect of `heappop` on the popped entry). -/
def removeEntry (m : Rat × String) : List (Rat × String) → List (Rat × String)
  | [] => []
  | e :: es => if e = m then es else e :: removeEntry m es

/-- Frontier `urls.get()`: remove and return the minimum-priority entry,
or fail on an empty queue. -/
def dequeue (q : List (Rat × String)) :
    Option ((Rat × String) × List (Rat × String)) :=
  match q with
  | [] => none
  | e :: es => some (minEntry e es, removeEntry (minEntry e es) (e :: es))

/-- Guarded enqueue of one discovered link (scraper.py lines 140-145): the
link is put on the queue only if it matches the site regex, is not in
`visited_urls` and is not among the current queue contents; its priority
is `0.5` for product-listing pages and `1` otherwise.  The float literal
`0.5` is the exact rational `mkRat 1 2` (see `priority_half_eq`). -/
def enqueueLink (visited : List String) (q : List (Rat × String))
    (url : String) : List (Rat × String) :=
  if matchesSiteRegex url then
    if url ∉ visited ∧ url ∉ q.map Prod.snd then
      q ++ [(if is_product_page url then mkRat 1 2 else 1, url)]
    else q
  else q

/-- Link loop of `main` (scraper.py lines 138-145), folding over the
`a[href]` targets in document order; `visited_urls` does not change while
the loop runs, the queue grows as links are accepted. -/
def processLinks (visited : List String) (q : List (Rat × String))
    (links : List String) : List (Rat × String) :=
  links.foldl (enqueueLink visited) q

/-- One iteration of the crawl loop body (scraper.py lines 129-151): pull
the minimum entry, fetch it; on success append the URL to `visited_urls`,
bump `pages_scraped`, enqueue its links and, if the URL is a product page,
append the raw result of `extract_product_data` to `products`; on failure
only log.  The dequeue cannot fail under the loop guard. -/
def crawlStep (outcome : FetchOutcome) (s : SessionState) : SessionState :=
  match dequeue s.queue with
  | none => s
  | some ((_, current_url), rest) =>
    match safe_scrape_page outcome with
    | some soup =>
      let visited1 := s.visited ++ [current_url]
      let q1 := processLinks visited1 rest soup.links
      let products1 :=
        if is_product_page current_url then
          s.products ++ [extract_product_data soup current_url]
        else s.products
      { queue := q1, visited := visited1, products := products1,
        pages_scraped := s.pages_scraped + 1 }
    | none => { s with queue := rest }

/-- Loop guard of `main` (scraper.py line 128): queue nonempty, elapsed
time under the limit when one is set, counter under the page limit when
one is set. -/
def loopGuard (tl pl : Option Int) (elapsed : Rat) (s : SessionState) : Bool :=
  !s.queue.isEmpty &&
    (match tl with | none => true | some l => decide (elapsed < (l : Rat))) &&
    (match pl with | none => true | some l => decide ((s.pages_scraped : Int) < l))

/-- Crawl loop driver: each trace element supplies the elapsed-time
reading at the guard check and the transport outcome of the iteration's
fetch.  The boolean records whether the run ended because the guard
failed (the loop's own exit) rather than because the trace ran out. -/
def crawlRun (tl pl : Option Int) :
    List (Rat × FetchOutcome) → SessionState → SessionState × Bool
  | [], s => (s, false)
  | (t, f) :: rest, s =>
    if loopGuard tl pl t s then crawlRun tl pl rest (crawlStep f s) else (s, true)

/-- Module constant `BASE_URL` (scraper.py line 34). -/
def BASE_URL : String := "https://scrapeme.live/shop/"

/-- Initial session state of `main` (scraper.py lines 122-126): the seed
URL queued at priority `0.5`, everything else empty. -/
def initialState : SessionState :=
  { queue := [(mkRat 1 2, BASE_URL)], visited := [], products := [],
    pages_scraped := 0 }

/-- Effective time limit computed by `main` (scraper.py line 117):
`args.time_limit * 60 if args.time_limit else None` — a missing flag and
the falsy value `0` both give no limit; any other value is converted from
minutes to seconds. -/
def effective_time_limit (arg : Option Int) : Option Int :=
  match arg with
  | none => none
  | some t => if t = 0 then none else some (t * 60)

/-- Suffix test on character lists. -/
def endsWithList (suf cs : List Char) : Bool :=
  (dropLit suf.reverse cs.reverse).isSome

/-- Specification-side definition, following the words of the same-site
claim (not the source): the URL's host — the part between `https://` and
the next `/` — is `scrapeme.live` itself or a subdomain of it.  Used only
to compare the source's link filter against the claim. -/
def claimSameSiteHost (url : String) : Bool :=
  match dropLit "https://".data url.data with
  | none => false
  | some t =>
    decide (t.takeWhile (fun c => c != '/') = "scrapeme.live".data) ||
      endsWithList ".scrapeme.live".data (t.takeWhile (fun c => c != '/'))

/-- Dictionary view of a product record: the `dict` built by
`extract_product_data`, keys in insertion order. -/
def productRow (p : Product) : List (String × String) :=
  [("url", p.url), ("image", p.image), ("name", p.name), ("price", p.price)]

/-- Key lookup in a dictionary row (first match). -/
def lookupKey (k : String) : List (String × String) → Option String
  | [] => none
  | kv :: rest => if kv.1 = k then some kv.2 else lookupKey k rest

/-- Column inference of `pandas.DataFrame` on a list of dicts: the union
of the keys, in order of first appearance. -/
def addRowKeys (acc : List String) (row : List (String × String)) : List String :=
  row.foldl (fun a kv => if kv.1 ∈ a then a else a ++ [kv.1]) acc

/-- Columns of `pandas.DataFrame(rows)` for a list of dict rows. -/
def dfColumns (rows : List (List (String × String))) : List String :=
  rows.foldl addRowKeys []

/-- Output sink `save_to_dataframe` (scraper.py lines 76-82), modelled to
the rows `DataFrame(...).to_csv(..., index=False)` writes: the header row
(the inferred columns) followed by one row per input dict in input order,
a missing key rendering as the empty cell.  For an empty input list the
DataFrame has no columns, so the file holds a single empty header line
and no data rows. -/
def save_to_dataframe (rows : List (List (String × String))) : List (List String) :=
  dfColumns rows :: rows.map (fun r => (dfColumns rows).map (fun c => (lookupKey c r).getD ""))

/-- Frontier invariant of the design document: the queued URLs are
pairwise distinct and disjoint from `visited_urls`. -/
def frontierOk (s : SessionState) : Prop :=
  (s.queue.map Prod.snd).Nodup ∧ ∀ u ∈ s.queue.map Prod.snd, u ∉ s.visited

/-- Concrete document: the seed page, linking to two ordinary same-site
pages. -/
def docSeed : Doc :=
  { links := ["https://scrapeme.live/a", "https://scrapeme.live/b"],
    image := none, title := none, price := none, malformed := false }

/-- Concrete document: page `b`, linking back to page `a`. -/
def docB : Doc :=
  { links := ["https://scrapeme.live/a"],
    image := none, title := none, price := none, malformed := false }

/-- Concrete document on which the selection layer faults, so that
`extract_product_data` returns `None`. -/
def malformedDoc : Doc :=
  { links := [], image := none, title := none, price := none, malformed := true }

/-- Concrete document with image and title elements but no price
element. -/
def noPriceDoc : Doc :=
  { links := [], image := some "https://scrapeme.live/img.png",
    title := some "Bulbasaur", price := none, malformed := false }

/-- Concrete benign document with no links and no product fields. -/
def emptyDoc : Doc :=
  { links := [], image := none, title := none, price := none, malformed := false }

/-- Concrete session state about to process a product-listing page. -/
def productPageState : SessionState :=
  { queue := [(mkRat 1 2, "https://scrapeme.live/shop/page/1/")],
    visited := [], products := [], pages_scraped := 0 }

/-- Concrete trace for a session whose configured time limit never
expires: the seed page, then page `a`, then a guard check that fails on
the page limit alone. -/
def pageLimitTrace : List (Rat × FetchOutcome) :=
  [((0 : Rat), FetchOutcome.response 200 docSeed),
   ((5 : Rat), FetchOutcome.response 200 docB),
   ((10 : Rat), FetchOutcome.requestError)]

/-- Concrete product record. -/
def sampleProduct : Product :=
  { url := "https://scrapeme.live/shop/page/1/", image := "i", name := "n",
    price := "p" }

/-! Helper lemmas about the regex translations, the float literal, and
the classifier's accepted language. -/

theorem dropLit_eq_some {p : List Char} : ∀ {s r : List Char},
    dropLit p s = some r ↔ s = p ++ r := by
  induction p with
  | nil => intro s r; simp [dropLit]
  | cons a ps ih =>
    intro s r
    cases s with
    | nil => simp [dropLit]
    | cons c cs =>
      by_cases h : c = a
      · subst h; simp [dropLit, ih]
      · simp only [dropLit, if_neg h]
        constructor
        · intro h'; cases h'
        · intro h'; exact absurd (List.cons_eq_cons.mp h').1 h

theorem priority_half_eq : mkRat 1 2 = (1 : Rat) / 2 := by
  norm_num [mkRat]

theorem restNum_iff : ∀ cs : List Char, restNum cs = true ↔
    ∃ ds : List Char, ds.all Char.isDigit = true ∧ (cs = ds ∨ cs = ds ++ ['/'])
  | [] => by
    constructor
    · intro _
      exact ⟨[], rfl, Or.inl rfl⟩
    · intro _
      rfl
  | c :: cs => by
    simp only [restNum]
    by_cases h : c = '/' ∧ cs = []
    · rw [if_pos h]
      constructor
      · intro _
        exact ⟨[], rfl, Or.inr (by rw [h.1, h.2]; rfl)⟩
      · intro _
        rfl
    · rw [if_neg h, Bool.and_eq_true, restNum_iff cs]
      constructor
      · rintro ⟨hd, ds, hall, hcs | hcs⟩
        · exact ⟨c :: ds, by rw [List.all_cons, hd, hall]; rfl, Or.inl (by rw [hcs])⟩
        · exact ⟨c :: ds, by rw [List.all_cons, hd, hall]; rfl, Or.inr (by rw [hcs]; rfl)⟩
      · rintro ⟨ds, hall, hds | hds⟩
        · cases ds with
          | nil => exact absurd hds (by simp)
          | cons d ds =>
            obtain ⟨h1, h2⟩ := List.cons_eq_cons.mp hds
            rw [List.all_cons, Bool.and_eq_true] at hall
            exact ⟨by rw [h1]; exact hall.1, ds, hall.2, Or.inl h2⟩
        · cases ds with
          | nil =>
            rw [List.nil_append] at hds
            obtain ⟨h1, h2⟩ := List.cons_eq_cons.mp hds
            exact absurd ⟨h1, h2⟩ h
          | cons d ds =>
            rw [List.cons_append] at hds
            obtain ⟨h1, h2⟩ := List.cons_eq_cons.mp hds
            rw [List.all_cons, Bool.and_eq_true] at hall
            exact ⟨by rw [h1]; exact hall.1, ds, hall.2, Or.inr h2⟩

theorem numTail_iff (cs : List Char) : numTail cs = true ↔
    ∃ ds : List Char, ds ≠ [] ∧ ds.all Char.isDigit = true ∧
      (cs = ds ∨ cs = ds ++ ['/']) := by
  cases cs with
  | nil =>
    constructor
    · intro hf
      cases hf
    · rintro ⟨ds, hne, _, hds | hds⟩
      · exact absurd hds.symm hne
      · exact absurd (List.append_eq_nil.mp hds.symm).2 (by simp)
  | cons c cs =>
    simp only [numTail, Bool.and_eq_true, restNum_iff]
    constructor
    · rintro ⟨hd, ds, hall, hcs | hcs⟩
      · exact ⟨c :: ds, by simp, by rw [List.all_cons, hd, hall]; rfl,
          Or.inl (by rw [hcs])⟩
      · exact ⟨c :: ds, by simp, by rw [List.all_cons, hd, hall]; rfl,
          Or.inr (by rw [hcs]; rfl)⟩
    · rintro ⟨ds, hne, hall, hds | hds⟩
      · cases ds with
        | nil => exact absurd rfl hne
        | cons d ds =>
          obtain ⟨h1, h2⟩ := List.cons_eq_cons.mp hds
          rw [List.all_cons, Bool.and_eq_true] at hall
          exact ⟨by rw [h1]; exact hall.1, ds, hall.2, Or.inl h2⟩
      · cases ds with
        | nil => exact absurd rfl hne
        | cons d ds =>
          rw [List.cons_append] at hds
          obtain ⟨h1, h2⟩ := List.cons_eq_cons.mp hds
          rw [List.all_cons, Bool.and_eq_true] at hall
          exact ⟨by rw [h1]; exact hall.1, ds, hall.2, Or.inr h2⟩

/-- C6 (confirmed): `is_product_page` accepts exactly the URL strings of
the form `https://scrapeme.live/shop/page/<digits>/`, with the trailing
slash present or absent and `<digits>` a nonempty run of digits; every
other string — in particular every other well-formed URL — is rejected.
(Python's `\d` would additionally accept non-ASCII Unicode digits, and
its `$` a trailing newline; neither can occur in a well-formed URL.) -/
theorem is_product_page_characterization (url : String) :
    is_product_page url = true ↔
      ∃ ds : String, ds ≠ "" ∧ ds.data.all Char.isDigit = true ∧
        (url = "https://scrapeme.live/shop/page/" ++ ds ∨
         url = "https://scrapeme.live/shop/page/" ++ ds ++ "/") := by
  cases h : dropLit "https://scrapeme.live/shop/page/".data url.data with
  | none =>
    simp only [is_product_page, h]
    constructor
    · intro hf
      cases hf
    · rintro ⟨ds, _, _, hurl | hurl⟩
      · have hd : url.data = "https://scrapeme.live/shop/page/".data ++ ds.data := by
          rw [hurl, String.data_append]
        have h2 := dropLit_eq_some.mpr hd
        rw [h] at h2
        exact Option.noConfusion h2
      · have hd : url.data = "https://scrapeme.live/shop/page/".data ++ (ds.data ++ ['/']) := by
          rw [hurl, String.data_append, String.data_append, List.append_assoc]
        have h2 := dropLit_eq_some.mpr hd
        rw [h] at h2
        exact Option.noConfusion h2
  | some rest =>
    have hr : url.data = "https://scrapeme.live/shop/page/".data ++ rest :=
      dropLit_eq_some.mp h
    simp only [is_product_page, h, numTail_iff]
    constructor
    · rintro ⟨ds, hne, hall, hcs | hcs⟩
      · refine ⟨String.mk ds, ?_, hall, Or.inl ?_⟩
        · intro he
          exact hne (congrArg String.data he)
        · apply String.ext
          rw [String.data_append, hr, hcs]
      · refine ⟨String.mk ds, ?_, hall, Or.inr ?_⟩
        · intro he
          exact hne (congrArg String.data he)
        · apply String.ext
          rw [String.data_append, String.data_append, List.append_assoc, hr, hcs]
    · rintro ⟨ds, hne, hall, hurl | hurl⟩
      · have hd : "https://scrapeme.live/shop/page/".data ++ rest =
            "https://scrapeme.live/shop/page/".data ++ ds.data := by
          rw [← hr, hurl, String.data_append]
        have h2 := List.append_cancel_left hd
        refine ⟨ds.data, ?_, hall, Or.inl h2⟩
        intro he
        exact hne (String.ext he)
      · have hd : "https://scrapeme.live/shop/page/".data ++ rest =
            "https://scrapeme.live/shop/page/".data ++ (ds.data ++ ['/']) := by
          rw [← hr, hurl, String.data_append, String.data_append, List.append_assoc]
        have h2 := List.append_cancel_left hd
        refine ⟨ds.data, ?_, hall, Or.inr h2⟩
        intro he
        exact hne (String.ext he)

/-- Witness for `is_product_page_characterization`: the classifier at
concrete inputs, both directions of the characterization exercised. -/
theorem is_product_page_characterization_witness :
    is_product_page "https://scrapeme.live/shop/page/12/" = true ∧
    is_product_page "https://scrapeme.live/shop/page/7" = true := by
  constructor
  · exact (is_product_page_characterization _).mpr
      ⟨"12", by decide, by decide, Or.inr (by decide)⟩
  · exact (is_product_page_characterization _).mpr
      ⟨"7", by decide, by decide, Or.inl (by decide)⟩

/-! Helper lemmas about the frontier operations. -/

theorem minEntry_mem (e : Rat × String) (l : List (Rat × String)) :
    minEntry e l ∈ e :: l := by
  induction l generalizing e with
  | nil => simp [minEntry]
  | cons f fs ih =>
    simp only [minEntry]
    split
    · rcases List.mem_cons.mp (ih e) with h | h
      · exact List.mem_cons.mpr (Or.inl h)
      · exact List.mem_cons.mpr (Or.inr (List.mem_cons.mpr (Or.inr h)))
    · rcases List.mem_cons.mp (ih f) with h | h
      · exact List.mem_cons.mpr (Or.inr (List.mem_cons.mpr (Or.inl h)))
      · exact List.mem_cons.mpr (Or.inr (List.mem_cons.mpr (Or.inr h)))

theorem removeEntry_sublist (m : Rat × String) (l : List (Rat × String)) :
    List.Sublist (removeEntry m l) l := by
  induction l with
  | nil => simp [removeEntry]
  | cons e es ih =>
    simp only [removeEntry]
    split
    · exact List.sublist_cons_self e es
    · exact ih.cons₂ e

theorem snd_notMem_removeEntry (m : Rat × String) (l : List (Rat × String))
    (hnd : (l.map Prod.snd).Nodup) (hm : m ∈ l) :
    m.2 ∉ (removeEntry m l).map Prod.snd := by
  induction l with
  | nil => cases hm
  | cons e es ih =>
    rw [List.map_cons, List.nodup_cons] at hnd
    simp only [removeEntry]
    split
    case isTrue he =>
      rw [← he]
      exact hnd.1
    case isFalse he =>
      have hm' : m ∈ es := by
        rcases List.mem_cons.mp hm with h | h
        · exact absurd h.symm he
        · exact h
      rw [List.map_cons, List.mem_cons]
      rintro (h1 | h1)
      · exact hnd.1 (h1 ▸ List.mem_map_of_mem Prod.snd hm')
      · exact ih hnd.2 hm' h1

theorem enqueueLink_nodup {v : List String} {q : List (Rat × String)} {url : String}
    (h1 : (q.map Prod.snd).Nodup) :
    ((enqueueLink v q url).map Prod.snd).Nodup := by
  unfold enqueueLink
  split
  · split
    case isTrue hc =>
      simp only [List.map_append, List.map_cons, List.map_nil]
      rw [List.nodup_append]
      exact ⟨h1, List.nodup_singleton url,
        fun x hx hx' => hc.2 ((List.mem_singleton.mp hx') ▸ hx)⟩
    case isFalse => exact h1
  · exact h1

theorem enqueueLink_disjoint {v : List String} {q : List (Rat × String)} {url : String}
    (h2 : ∀ u ∈ q.map Prod.snd, u ∉ v) :
    ∀ u ∈ (enqueueLink v q url).map Prod.snd, u ∉ v := by
  unfold enqueueLink
  split
  · split
    case isTrue hc =>
      intro u hu
      simp only [List.map_append, List.map_cons, List.map_nil, List.mem_append] at hu
      rcases hu with h | h
      · exact h2 u h
      · exact (List.mem_singleton.mp h) ▸ hc.1
    case isFalse => exact h2
  · exact h2

theorem processLinks_nodup_disjoint (v : List String) (links : List String) :
    ∀ q : List (Rat × String), (q.map Prod.snd).Nodup →
      (∀ u ∈ q.map Prod.snd, u ∉ v) →
      ((processLinks v q links).map Prod.snd).Nodup ∧
        ∀ u ∈ (processLinks v q links).map Prod.snd, u ∉ v := by
  induction links with
  | nil => exact fun q h1 h2 => ⟨h1, h2⟩
  | cons l ls ih =>
    intro q h1 h2
    simp only [processLinks, List.foldl_cons] at ih ⊢
    exact ih (enqueueLink v q l) (enqueueLink_nodup h1) (enqueueLink_disjoint h2)

theorem dequeue_facts {q : List (Rat × String)} {p : Rat} {u : String}
    {rest : List (Rat × String)} (hdq : dequeue q = some ((p, u), rest)) :
    (p, u) ∈ q ∧ rest = removeEntry (p, u) q := by
  cases q with
  | nil => cases hdq
  | cons e es =>
    simp only [dequeue, Option.some_inj] at hdq
    obtain ⟨h1, h2⟩ := Prod.mk.injEq .. ▸ hdq
    constructor
    · rw [← h1]
      exact minEntry_mem e es
    · rw [← h2, ← h1]

theorem crawlStep_frontierOk (f : FetchOutcome) (s : SessionState)
    (h : frontierOk s) : frontierOk (crawlStep f s) := by
  obtain ⟨hnd, hdis⟩ := h
  unfold crawlStep
  cases hdq : dequeue s.queue with
  | none => exact ⟨hnd, hdis⟩
  | some pr =>
    obtain ⟨⟨p, u⟩, rest⟩ := pr
    obtain ⟨hmem, hrest⟩ := dequeue_facts hdq
    have hsub : List.Sublist (rest.map Prod.snd) (s.queue.map Prod.snd) := by
      rw [hrest]
      exact (removeEntry_sublist (p, u) s.queue).map Prod.snd
    have hnd' : (rest.map Prod.snd).Nodup := hnd.sublist hsub
    have hdis' : ∀ x ∈ rest.map Prod.snd, x ∉ s.visited :=
      fun x hx => hdis x (hsub.subset hx)
    have hu : u ∉ rest.map Prod.snd := by
      rw [hrest]
      exact snd_notMem_removeEntry (p, u) s.queue hnd hmem
    cases safe_scrape_page f with
    | none => exact ⟨hnd', hdis'⟩
    | some soup =>
      have hdis1 : ∀ x ∈ rest.map Prod.snd, x ∉ s.visited ++ [u] := by
        intro x hx hx'
        rcases List.mem_append.mp hx' with h1 | h1
        · exact hdis' x hx h1
        · exact hu ((List.mem_singleton.mp h1) ▸ hx)
      have := processLinks_nodup_disjoint (s.visited ++ [u]) soup.links rest hnd' hdis1
      exact ⟨this.1, this.2⟩

theorem crawlRun_frontierOk (tl pl : Option Int) :
    ∀ (tr : List (Rat × FetchOutcome)) (s : SessionState), frontierOk s →
      frontierOk (crawlRun tl pl tr s).1 := by
  intro tr
  induction tr with
  | nil => exact fun s h => h
  | cons tf rest ih =>
    intro s h
    obtain ⟨t, f⟩ := tf
    simp only [crawlRun]
    split
    · exact ih (crawlStep f s) (crawlStep_frontierOk f s h)
    · exact h

/-- C5 (confirmed): along every crawl run from the program's initial state
— any sequence of the loop's dequeue and guarded-enqueue operations — the
frontier holds each URL at most once and never holds a URL that is in
`visited_urls`; moreover the guarded enqueue of a URL already present in
the frontier leaves the queue unchanged, so that URL still has exactly
one entry. -/
theorem frontier_nodup_disjoint :
    (∀ (tl pl : Option Int) (tr : List (Rat × FetchOutcome)),
        frontierOk (crawlRun tl pl tr initialState).1) ∧
    (∀ (v : List String) (q : List (Rat × String)) (url : String),
        url ∈ q.map Prod.snd → enqueueLink v q url = q) ∧
    (∀ (v : List String) (q : List (Rat × String)) (url : String),
        (q.map Prod.snd).Nodup → url ∈ q.map Prod.snd →
        ((enqueueLink v q url).map Prod.snd).count url = 1) := by
  have hmem : ∀ (v : List String) (q : List (Rat × String)) (url : String),
      url ∈ q.map Prod.snd → enqueueLink v q url = q := by
    intro v q url hq
    unfold enqueueLink
    split
    · rw [if_neg (fun hc => hc.2 hq)]
    · rfl
  refine ⟨?_, hmem, ?_⟩
  · intro tl pl tr
    apply crawlRun_frontierOk
    exact ⟨by decide, by decide⟩
  · intro v q url hnd hq
    rw [hmem v q url hq]
    exact List.count_eq_one_of_mem hnd hq

/-- Witness for `frontier_nodup_disjoint`: the invariant evaluated on a
concrete three-iteration run, and the guarded enqueue evaluated on a
queue already holding the URL. -/
theorem frontier_nodup_disjoint_witness :
    frontierOk (crawlRun none none
      [((0 : Rat), FetchOutcome.response 200 docSeed),
       ((0 : Rat), FetchOutcome.requestError),
       ((0 : Rat), FetchOutcome.response 200 docB)] initialState).1 ∧
    enqueueLink [] [(1, "https://scrapeme.live/a")] "https://scrapeme.live/a"
        = [(1, "https://scrapeme.live/a")] ∧
    ((enqueueLink [] [(1, "https://scrapeme.live/a")] "https://scrapeme.live/a").map
        Prod.snd).count "https://scrapeme.live/a" = 1 :=
  ⟨frontier_nodup_disjoint.1 none none _,
   frontier_nodup_disjoint.2.1 [] _ _ (by decide),
   frontier_nodup_disjoint.2.2 [] _ _ (by decide) (by decide)⟩

/-- C3 (corrected, universal part): every entry of the queue after the
link loop of a successful iteration is either an entry that was already
queued or a link accepted by the source's regex
`https://(?:.*\.)?scrapeme.live` (anchored at the start only, with the
unescaped dot matching any character), queued with priority `0.5` when
`is_product_page` matches it and priority `1` otherwise. -/
theorem enqueued_link_regex_and_priority
    (v : List String) (links : List String) :
    ∀ (q : List (Rat × String)) (e : Rat × String), e ∈ processLinks v q links →
      e ∈ q ∨ (matchesSiteRegex e.2 = true ∧
        e.1 = (if is_product_page e.2 then mkRat 1 2 else 1)) := by
  induction links with
  | nil => exact fun q e he => Or.inl he
  | cons l ls ih =>
    intro q e he
    simp only [processLinks, List.foldl_cons] at he
    rcases ih (enqueueLink v q l) e he with h | h
    · unfold enqueueLink at h
      split at h
      case isTrue hsite =>
        split at h
        case isTrue hc =>
          rcases List.mem_append.mp h with h1 | h1
          · exact Or.inl h1
          · rw [List.mem_singleton.mp h1]
            exact Or.inr ⟨hsite, rfl⟩
        case isFalse => exact Or.inl h
      case isFalse => exact Or.inl h
    · exact Or.inr h

/-- Witness for `enqueued_link_regex_and_priority`: a concrete link loop
over one product-listing link. -/
theorem enqueued_link_regex_and_priority_witness :
    ((mkRat 1 2, "https://scrapeme.live/shop/page/2/") ∈
        ([] : List (Rat × String)) ∨
      (matchesSiteRegex "https://scrapeme.live/shop/page/2/" = true ∧
        (mkRat 1 2 : Rat) =
          (if is_product_page "https://scrapeme.live/shop/page/2/" then mkRat 1 2
           else 1))) :=
  enqueued_link_regex_and_priority [] ["https://scrapeme.live/shop/page/2/"]
    [] (mkRat 1 2, "https://scrapeme.live/shop/page/2/") (by decide)

/-- C3 (counterexample): the URL `https://scrapemexlive.evil.com/x`, whose
host is neither `scrapeme.live` nor one of its subdomains, is accepted by
the source's link filter and enqueued (at priority 1), because the
unescaped dot of the pattern `scrapeme.live` matches the `x`. -/
theorem offsite_host_enqueued_counterexample :
    processLinks [] [] ["https://scrapemexlive.evil.com/x"]
        = [(1, "https://scrapemexlive.evil.com/x")] ∧
      claimSameSiteHost "https://scrapemexlive.evil.com/x" = false := by
  decide

/-! Helper lemmas about the page counter. -/

theorem crawlStep_pages_le (f : FetchOutcome) (s : SessionState) :
    (crawlStep f s).pages_scraped ≤ s.pages_scraped + 1 := by
  unfold crawlStep
  cases dequeue s.queue with
  | none => exact Nat.le_succ _
  | some pr =>
    obtain ⟨⟨p, u⟩, rest⟩ := pr
    cases safe_scrape_page f with
    | some soup => exact Nat.le_refl _
    | none => exact Nat.le_succ _

theorem crawlRun_pages_le_limit (tl : Option Int) (N : Nat) :
    ∀ (tr : List (Rat × FetchOutcome)) (s : SessionState),
      s.pages_scraped ≤ N →
      (crawlRun tl (some (N : Int)) tr s).1.pages_scraped ≤ N ∧
      ((∀ p ∈ tr, ∀ l : Int, tl = some l → p.1 < (l : Rat)) →
        (crawlRun tl (some (N : Int)) tr s).2 = true →
        (crawlRun tl (some (N : Int)) tr s).1.queue ≠ [] →
        (crawlRun tl (some (N : Int)) tr s).1.pages_scraped = N) := by
  intro tr
  induction tr with
  | nil =>
    intro s h
    exact ⟨h, fun _ h2 => absurd h2 (by simp [crawlRun])⟩
  | cons tf rest ih =>
    intro s h
    obtain ⟨t, f⟩ := tf
    by_cases hg : loopGuard tl (some (N : Int)) t s = true
    · have hlt : s.pages_scraped < N := by
        simp only [loopGuard, Bool.and_eq_true] at hg
        exact_mod_cast of_decide_eq_true hg.2
      have hstep : (crawlStep f s).pages_scraped ≤ N :=
        Nat.le_trans (crawlStep_pages_le f s) hlt
      simp only [crawlRun, hg, if_true]
      obtain ⟨ha, hb⟩ := ih (crawlStep f s) hstep
      exact ⟨ha, fun htime => hb fun p hp l hl => htime p (List.mem_cons_of_mem _ hp) l hl⟩
    · simp only [crawlRun, if_neg hg]
      refine ⟨h, fun htime _ hq => ?_⟩
      have hq' : s.queue.isEmpty = false := by
        cases he : s.queue.isEmpty
        · rfl
        · exact absurd (List.isEmpty_iff.mp he) hq
      have hnlt : ¬((s.pages_scraped : Int) < (N : Int)) := by
        intro hp
        apply hg
        cases tl with
        | none =>
          simp only [loopGuard, hq', Bool.not_false, Bool.true_and]
          exact decide_eq_true hp
        | some l =>
          have ht : t < (l : Rat) := htime (t, f) (List.mem_cons_self _ _) l rfl
          simp only [loopGuard, hq', Bool.not_false, Bool.true_and,
            decide_eq_true ht]
          exact decide_eq_true hp
      have hge : N ≤ s.pages_scraped := by exact_mod_cast Int.not_lt.mp hnlt
      exact Nat.le_antisymm h hge

/-- C7 (corrected): with `pageLimit = N` the pages-scraped counter never
exceeds `N` — any point of a session is the final state of the truncated
trace, so the bound over all traces covers every intermediate state — and
the counter is exactly `N` whenever the loop exits by its own guard with
a nonempty frontier and the time limit did not expire first: every
elapsed-time reading of the session stayed below any configured limit
(vacuously true when no time limit is configured).  With an expiring
time limit the exact-`N` clause can fail; see the counterexample. -/
theorem pages_scraped_page_limit (N : Nat) (tl : Option Int)
    (tr : List (Rat × FetchOutcome)) :
    (crawlRun tl (some (N : Int)) tr initialState).1.pages_scraped ≤ N ∧
    ((∀ p ∈ tr, ∀ l : Int, tl = some l → p.1 < (l : Rat)) →
      (crawlRun tl (some (N : Int)) tr initialState).2 = true →
      (crawlRun tl (some (N : Int)) tr initialState).1.queue ≠ [] →
      (crawlRun tl (some (N : Int)) tr initialState).1.pages_scraped = N) :=
  crawlRun_pages_le_limit tl N tr initialState (Nat.zero_le N)

/-- Witness for `pages_scraped_page_limit`: a session with page limit `2`
and a configured 100-minute time limit (6000 seconds) that never expires
scrapes two pages and exits on the page clause with the frontier still
nonempty and the counter exactly `2`. -/
theorem pages_scraped_page_limit_witness :
    (crawlRun (some 6000) (some ((2 : Nat) : Int))
        pageLimitTrace initialState).1.pages_scraped ≤ 2 ∧
    (crawlRun (some 6000) (some ((2 : Nat) : Int))
        pageLimitTrace initialState).1.pages_scraped = 2 :=
  ⟨(pages_scraped_page_limit 2 (some 6000) pageLimitTrace).1,
   (pages_scraped_page_limit 2 (some 6000) pageLimitTrace).2
     (by
       intro p hp l hl
       obtain rfl : (6000 : Int) = l := by injection hl
       simp only [pageLimitTrace] at hp
       fin_cases hp <;> norm_num)
     (by decide) (by decide)⟩

/-- C7 (counterexample): a session with `pageLimit = 2` and a one-minute
time limit fetches one page, then exits because the time limit expired;
the loop terminated by its own guard, the frontier is nonempty, and the
counter is `1 ≠ 2` — so the counter does not reach the page limit even
though the frontier never emptied. -/
theorem pages_scraped_page_limit_counterexample :
    (crawlRun (effective_time_limit (some 1)) (some 2)
        [((0 : Rat), FetchOutcome.response 200 docSeed),
         ((100 : Rat), FetchOutcome.requestError)] initialState).2 = true ∧
    (crawlRun (effective_time_limit (some 1)) (some 2)
        [((0 : Rat), FetchOutcome.response 200 docSeed),
         ((100 : Rat), FetchOutcome.requestError)] initialState).1.queue ≠ [] ∧
    (crawlRun (effective_time_limit (some 1)) (some 2)
        [((0 : Rat), FetchOutcome.response 200 docSeed),
         ((100 : Rat), FetchOutcome.requestError)] initialState).1.pages_scraped ≠ 2 := by
  decide

/-- C1 (corrected): the dequeued URL is appended to `visited_urls`
exactly when its fetch succeeds — the append sits inside the `if soup:`
branch, so a failed fetch leaves the visited set unchanged. -/
theorem visited_appended_iff_fetch_success (f : FetchOutcome) (s : SessionState)
    (p : Rat) (u : String) (rest : List (Rat × String))
    (hdq : dequeue s.queue = some ((p, u), rest)) :
    (crawlStep f s).visited =
      (if (safe_scrape_page f).isSome then s.visited ++ [u] else s.visited) := by
  unfold crawlStep
  rw [hdq]
  cases safe_scrape_page f with
  | some soup => rfl
  | none => rfl

/-- Witness for `visited_appended_iff_fetch_success`: the program's first
iteration with a failing fetch. -/
theorem visited_appended_iff_fetch_success_witness :
    (crawlStep FetchOutcome.requestError initialState).visited =
      (if (safe_scrape_page FetchOutcome.requestError).isSome then
        initialState.visited ++ [BASE_URL]
       else initialState.visited) :=
  visited_appended_iff_fetch_success FetchOutcome.requestError initialState
    (mkRat 1 2) BASE_URL [] (by decide)

/-- C1 (counterexample): run the loop from the initial state with the
seed page linking to `a` and `b`; the fetch of `a` fails.  After two
iterations `a` has been dequeued and fetched, yet the visited set holds
only the seed — contradicting "added to the visited set immediately,
before and regardless of the fetch outcome".  One iteration later `b`'s
page links to `a` again and `a` re-enters the frontier — contradicting
"never re-enqueued or fetched a second time in the same session". -/
theorem visited_on_failure_counterexample :
    (crawlRun none none
        [((0 : Rat), FetchOutcome.response 200 docSeed),
         ((0 : Rat), FetchOutcome.requestError)] initialState).1.queue
      = [(1, "https://scrapeme.live/b")] ∧
    (crawlRun none none
        [((0 : Rat), FetchOutcome.response 200 docSeed),
         ((0 : Rat), FetchOutcome.requestError)] initialState).1.visited
      = ["https://scrapeme.live/shop/"] ∧
    (crawlRun none none
        [((0 : Rat), FetchOutcome.response 200 docSeed),
         ((0 : Rat), FetchOutcome.requestError),
         ((0 : Rat), FetchOutcome.response 200 docB)] initialState).1.queue
      = [(1, "https://scrapeme.live/a")] := by
  decide

/-- C2 (code bug): on a successfully fetched product-listing page whose
extraction faults, `extract_product_data` returns `None`, and the loop
body appends that `None` to `products` unconditionally — the accumulated
list is NOT left unchanged, it gains a `None` entry. -/
theorem failed_extraction_appended_counterexample :
    extract_product_data malformedDoc "https://scrapeme.live/shop/page/1/" = none ∧
    (crawlStep (FetchOutcome.response 200 malformedDoc) productPageState).products
      = [none] := by
  decide

/-- C4 (corrected): a document with image and title elements but no price
element extracts to a record whose price is the sentinel — spelled
`"No price found"` with a capital `N`, not `"no price found"` — and whose
image and name fields hold the located values (the name
whitespace-stripped, as `.text.strip()` does). -/
theorem extract_missing_price_sentinel (soup : Doc) (url i t : String)
    (h1 : soup.malformed = false) (h2 : soup.price = none)
    (h3 : soup.image = some i) (h4 : soup.title = some t) :
    extract_product_data soup url =
      some { url := url, image := i, name := pyStrip t,
             price := "No price found" } := by
  simp [extract_product_data, h1, h2, h3, h4]

/-- Witness for `extract_missing_price_sentinel`: a concrete document
with image and title but no price. -/
theorem extract_missing_price_sentinel_witness :
    extract_product_data noPriceDoc "https://scrapeme.live/shop/page/1/" =
      some { url := "https://scrapeme.live/shop/page/1/",
             image := "https://scrapeme.live/img.png",
             name := pyStrip "Bulbasaur", price := "No price found" } :=
  extract_missing_price_sentinel noPriceDoc "https://scrapeme.live/shop/page/1/"
    "https://scrapeme.live/img.png" "Bulbasaur" rfl rfl rfl rfl

/-- C4 (counterexample): the record produced for a document lacking only
the price carries `"No price found"`, which is not the claimed sentinel
string `"no price found"`. -/
theorem price_sentinel_spelling_counterexample :
    extract_product_data noPriceDoc "https://scrapeme.live/shop/page/1/" =
      some { url := "https://scrapeme.live/shop/page/1/",
             image := "https://scrapeme.live/img.png",
             name := "Bulbasaur", price := "No price found" } ∧
    ("No price found" : String) ≠ "no price found" := by
  decide

/-- C8 (confirmed): `safe_scrape_page` yields a parsed document exactly
when the transport call returned a response whose status is outside the
range `400..599` for which `raise_for_status` raises; every
`RequestException` and every error status yields `None`, and the
function is total — the `except` clauses let no exception propagate. -/
theorem fetch_success_iff_status_ok (outcome : FetchOutcome) :
    ((safe_scrape_page outcome).isSome = true ↔
      ∃ status doc, outcome = FetchOutcome.response status doc ∧
        ¬(400 ≤ status ∧ status < 600)) ∧
    (∀ status doc, outcome = FetchOutcome.response status doc →
      ¬(400 ≤ status ∧ status < 600) → safe_scrape_page outcome = some doc) := by
  cases outcome with
  | requestError =>
    constructor
    · constructor
      · intro hf
        cases hf
      · rintro ⟨st, d, hd, -⟩
        cases hd
    · intro st d hd
      cases hd
  | response status doc =>
    constructor
    · constructor
      · intro hs
        refine ⟨status, doc, rfl, fun hbad => ?_⟩
        simp only [safe_scrape_page, if_pos hbad] at hs
        cases hs
      · rintro ⟨st, d, hd, hok⟩
        obtain ⟨rfl, rfl⟩ : status = st ∧ doc = d := by
          injection hd with h1 h2
          exact ⟨h1, h2⟩
        simp only [safe_scrape_page, if_neg hok, Option.isSome_some]
    · intro st d hd hok
      obtain ⟨rfl, rfl⟩ : status = st ∧ doc = d := by
        injection hd with h1 h2
        exact ⟨h1, h2⟩
      simp only [safe_scrape_page, if_neg hok]

/-- Witness for `fetch_success_iff_status_ok`: a 200 response yields the
parsed document, as the second conjunct applied at concrete input. -/
theorem fetch_success_iff_status_ok_witness :
    safe_scrape_page (FetchOutcome.response 200 emptyDoc) = some emptyDoc :=
  (fetch_success_iff_status_ok (FetchOutcome.response 200 emptyDoc)).2
    200 emptyDoc rfl (by decide)

/-! Helper lemmas about the DataFrame column inference. -/

theorem addRowKeys_nil_productRow (p : Product) :
    addRowKeys [] (productRow p) = ["url", "image", "name", "price"] := rfl

theorem addRowKeys_full_productRow (p : Product) :
    addRowKeys ["url", "image", "name", "price"] (productRow p)
      = ["url", "image", "name", "price"] := rfl

theorem foldl_addRowKeys_full (ps : List Product) :
    List.foldl addRowKeys ["url", "image", "name", "price"] (ps.map productRow)
      = ["url", "image", "name", "price"] := by
  induction ps with
  | nil => rfl
  | cons q qs ih =>
    simp only [List.map_cons, List.foldl_cons, addRowKeys_full_productRow]
    exact ih

theorem dfColumns_product_rows (p : Product) (qs : List Product) :
    dfColumns ((p :: qs).map productRow) = ["url", "image", "name", "price"] := by
  simp only [dfColumns, List.map_cons, List.foldl_cons, addRowKeys_nil_productRow]
  exact foldl_addRowKeys_full qs

theorem rows_render (ps : List Product) :
    (ps.map productRow).map
        (fun r => ["url", "image", "name", "price"].map
          (fun c => (lookupKey c r).getD ""))
      = ps.map (fun p => [p.url, p.image, p.name, p.price]) := by
  induction ps with
  | nil => rfl
  | cons p qs ih =>
    rw [List.map_cons, List.map_cons, List.map_cons, ih]
    rfl

/-- C9 (corrected, universal part): for every nonempty list of product
records, the rows written by `save_to_dataframe` are the header row
`url,image,name,price` followed by exactly one data row per record, in
accumulation order. -/
theorem csv_header_and_rows (ps : List Product) (h : ps ≠ []) :
    save_to_dataframe (ps.map productRow) =
      ["url", "image", "name", "price"] ::
        ps.map (fun p => [p.url, p.image, p.name, p.price]) := by
  cases ps with
  | nil => exact absurd rfl h
  | cons p qs =>
    unfold save_to_dataframe
    rw [dfColumns_product_rows, rows_render]

/-- Witness for `csv_header_and_rows`: a one-record list. -/
theorem csv_header_and_rows_witness :
    save_to_dataframe ([sampleProduct].map productRow) =
      ["url", "image", "name", "price"] ::
        [sampleProduct].map (fun p => [p.url, p.image, p.name, p.price]) :=
  csv_header_and_rows [sampleProduct] (by decide)

/-- C9 (counterexample): for a session that accumulated zero records,
`pandas.DataFrame([])` has no columns at all, so the written file is a
single empty header line — it does not begin with the header row
`url,image,name,price`. -/
theorem empty_csv_header_counterexample :
    save_to_dataframe ([] : List (List (String × String))) = [[]] ∧
    ([[]] : List (List String)) ≠ [["url", "image", "name", "price"]] := by
  decide

/-- C10 (confirmed): `--time-limit 0` yields no time bound, identical to
omitting the flag (Python truthiness of `args.time_limit`); with
`--page-limit 0` the loop guard fails before the first iteration, so no
fetch is ever attempted and the state is unchanged; and for `T ≥ 1`,
`--time-limit T` becomes the bound `T * 60` seconds, and the guard fails
at any elapsed time of at least `T * 60` seconds, so no iteration starts
at or after that moment. -/
theorem cli_limits_semantics :
    (effective_time_limit (some 0) = none ∧ effective_time_limit none = none) ∧
    (∀ (tl : Option Int) (tr : List (Rat × FetchOutcome)),
        (crawlRun tl (some 0) tr initialState).1 = initialState) ∧
    (∀ T : Int, 1 ≤ T →
        effective_time_limit (some T) = some (T * 60) ∧
        ∀ (pl : Option Int) (t : Rat) (s : SessionState),
          ((T * 60 : Int) : Rat) ≤ t →
          loopGuard (some (T * 60)) pl t s = false) := by
  refine ⟨⟨rfl, rfl⟩, ?_, ?_⟩
  · intro tl tr
    cases tr with
    | nil => rfl
    | cons tf rest =>
      obtain ⟨t, f⟩ := tf
      have hg : loopGuard tl (some 0) t initialState = false := by
        simp only [loopGuard, initialState]
        rw [decide_eq_false (by norm_num), Bool.and_false]
      simp only [crawlRun]
      rw [if_neg (by rw [hg]; exact Bool.false_ne_true)]
  · intro T hT
    constructor
    · simp only [effective_time_limit]
      rw [if_neg (by omega)]
    · intro pl t s ht
      have hnlt : ¬(t < ((T * 60 : Int) : Rat)) := not_lt.mpr ht
      simp only [loopGuard]
      rw [decide_eq_false hnlt, Bool.and_false, Bool.false_and]

/-- Witness for `cli_limits_semantics`: the conversions and the guard at
concrete inputs. -/
theorem cli_limits_semantics_witness :
    effective_time_limit (some 1) = some (1 * 60) ∧
    loopGuard (some ((1 : Int) * 60)) none 60 initialState = false ∧
    (crawlRun none (some 0) [((0 : Rat), FetchOutcome.requestError)]
        initialState).1 = initialState :=
  ⟨(cli_limits_semantics.2.2 1 (by norm_num)).1,
   (cli_limits_semantics.2.2 1 (by norm_num)).2 none 60 initialState (by norm_num),
   cli_limits_semantics.2.1 none _⟩

end Scraper
